import Mathlib

/-!
Verification of the perpetuo stall tracker against its specification.

This file is a shallow embedding of the program (src/shmem.rs, src/lib.rs,
src/main.rs): the shared-memory slot data model, the in-process slot
allocator and the handle operations exposed to the binding layer, the
monitor's page-discovery scan, the per-poll stall detection pass
`check_stalls`, and the reporter's traceback rate limiting and thread
attribution.

Modelling conventions:
- machine integers (`usize`, `u64`) are `Nat`; the `u64` counter update
  `fetch_add(1)` wraps, written `(c + 1) % u64Mod`;
- `Instant` values are abstract ticks (`Nat`); the Rust expression
  `now.duration_since(earlier)` is the truncated subtraction `now - earlier`
  (saturating at zero, like `Instant::duration_since`);
- cross-process memory reads and UTF-8 name decoding are the external
  boundary of the program (the remoteprocess crate and the standard
  library): a read of a process map header is an `Option ShmemHeader`
  input, and reading-plus-decoding a slot name is a supplied function
  returning `Except String String`, matching the fallible Rust calls
  `copy` and `String::from_utf8`;
- field and function names follow the Rust source;
- the layout constants (header size, slot size and alignment) are those of
  a 64-bit target: pointers are 8 bytes and `AtomicU64` is 8 bytes with
  8-byte alignment.
-/

set_option autoImplicit false

namespace Perpetuo

/-- The wrap modulus of the 64-bit slot counter. -/
def u64Mod : Nat := 2 ^ 64

/-- Model of `pub struct ThreadHint(usize)` from src/shmem.rs: value `0` is
the GIL sentinel, any other value an OS thread id. -/
structure ThreadHint where
  val : Nat
  deriving DecidableEq

/-- Model of `pub const GIL: ThreadHint = ThreadHint(0)`. -/
def GIL : ThreadHint := ⟨0⟩

/-- Model of `ThreadHint::from_thread_id`: rejects a zero thread id. -/
def ThreadHint.from_thread_id (id : Nat) : Except String ThreadHint :=
  if id = 0 then .error "thread id must be non-zero"
  else .ok ⟨id⟩

/-- Model of `ThreadHint::is_gil`. -/
def ThreadHint.is_gil (h : ThreadHint) : Bool := h.val == 0

/-- Model of a py-spy `StackTrace`, keeping the two fields the program
inspects: the OS thread id (a `u64`) and the `owns_gil` flag. -/
structure StackTrace where
  thread_id : Nat
  owns_gil : Bool
  deriving DecidableEq

/-- Model of `ThreadHint::relevant`: with the GIL sentinel a trace is
relevant when it owns the GIL, otherwise when its thread id equals the
hint (the Rust `usize` to `u64` conversion is the identity on a 64-bit
target). -/
def ThreadHint.relevant (h : ThreadHint) (trace : StackTrace) : Bool :=
  if h.is_gil then trace.owns_gil
  else trace.thread_id == h.val

/-- Model of `pub struct SlotMetadata` from src/shmem.rs. -/
structure SlotMetadata where
  name_ptr : Nat
  name_len : Nat
  thread_hint : ThreadHint
  deriving DecidableEq

/-- Model of `pub struct StallTracker`: a 64-bit counter (odd = actively in
use, even = quiescent/idle) plus metadata. -/
structure StallTracker where
  count : Nat
  metadata : SlotMetadata
  deriving DecidableEq

/-- Model of `StallTracker::toggle`: a wrapping `fetch_add(1)`. -/
def StallTracker.toggle (st : StallTracker) : StallTracker :=
  { st with count := (st.count + 1) % u64Mod }

/-- Model of `StallTracker::is_active`: the counter parity test. -/
def StallTracker.is_active (st : StallTracker) : Bool :=
  st.count % 2 == 1

/-- Model of `pub struct StallReport` from src/shmem.rs. -/
structure StallReport where
  id : Nat
  name : String
  thread_hint : ThreadHint
  duration : Nat
  deriving DecidableEq

/-! ### Shared-memory page layout and discovery (src/shmem.rs) -/

/-- The 16 magic bytes of `MAGIC` in src/shmem.rs. -/
def MAGIC : List Nat :=
  [0xad, 0xce, 0x61, 0x74, 0x17, 0x49, 0xff, 0x41,
   0xe8, 0xd4, 0xe8, 0x0a, 0x50, 0xb1, 0xfc, 0x86]

/-- Model of `const VERSION: usize = 0`. -/
def VERSION : Nat := 0

/-- Model of `pub struct ShmemHeader`: magic bytes, self address, version. -/
structure ShmemHeader where
  magic : List Nat
  self_address : Nat
  version : Nat
  deriving DecidableEq

/-- Size of `ShmemHeader` on a 64-bit target: 16 magic bytes plus two
8-byte words (`repr(C)`, no padding needed at 8-byte alignment). -/
def size_of_ShmemHeader : Nat := 16 + 8 + 8

/-- Alignment of `StallTracker` on a 64-bit target: the largest field
alignment, 8 bytes (`AtomicU64` and `usize`). -/
def align_of_StallTracker : Nat := 8

/-- Size of `StallTracker` on a 64-bit target: the 8-byte counter plus the
three 8-byte metadata words (`repr(C)`, naturally aligned, no padding). -/
def size_of_StallTracker : Nat := 8 + 8 + 8 + 8

/-- Model of `round_up_to_multiple` from src/shmem.rs:
`(value + multiple - 1) / multiple * multiple`. -/
def round_up_to_multiple (value multiple : Nat) : Nat :=
  (value + multiple - 1) / multiple * multiple

/-- The slot-array base address computed in `PerpetuoProc::new`:
`round_up_to_multiple(map.start() + size_of::<ShmemHeader>(), align)`. -/
def slots_ptr (start : Nat) : Nat :=
  round_up_to_multiple (start + size_of_ShmemHeader) align_of_StallTracker

/-- The slot count computed in `PerpetuoProc::new`:
`(map.start() + map.size() - slots_ptr) / size_of::<StallTracker>()`. -/
def slots_count (start psize : Nat) : Nat :=
  (start + psize - slots_ptr start) / size_of_StallTracker

/-- One entry of the target's memory map as seen by the discovery scan in
`PerpetuoProc::new`. The `header` field is the outcome of the external
`copy_struct::<ShmemHeader>(map.start())` (`none` = the read failed, e.g. a
guard page); `slots_readable` records whether the subsequent external
`copy_vec` of the slot array would succeed. -/
structure MapEntry where
  start : Nat
  size : Nat
  header : Option ShmemHeader
  slots_readable : Bool
  deriving DecidableEq

/-- Possible outcomes of the discovery scan in `PerpetuoProc::new`. -/
inductive DiscoverResult where
  | found (ptr count : Nat)
  | versionMismatch (target ours : Nat)
  | slotsReadError
  | notInstrumented
  | permissionDenied
  deriving DecidableEq

/-- The scan loop of `PerpetuoProc::new`: skip maps whose size is not one
page; skip maps whose header cannot be read; on a successful header read
set `read_any`; skip on magic or self-address mismatch; bail on version
mismatch; otherwise compute the slot array location and read it. After the
loop: `read_any = false` gives the permission diagnostic, otherwise the
not-instrumented error. -/
def discover_go (page_size : Nat) (read_any : Bool) :
    List MapEntry → DiscoverResult
  | [] => if read_any then .notInstrumented else .permissionDenied
  | m :: rest =>
    if m.size ≠ page_size then discover_go page_size read_any rest
    else
      match m.header with
      | none => discover_go page_size read_any rest
      | some header =>
        if header.magic ≠ MAGIC then discover_go page_size true rest
        else if header.self_address ≠ m.start then discover_go page_size true rest
        else if header.version ≠ VERSION then .versionMismatch header.version VERSION
        else if m.slots_readable then
          .found (slots_ptr m.start) (slots_count m.start m.size)
        else .slotsReadError

/-- The discovery scan of `PerpetuoProc::new`, starting with
`read_any = false`. -/
def discover (page_size : Nat) (maps : List MapEntry) : DiscoverResult :=
  discover_go page_size false maps

/-- A candidate map that the scan accepts (page-sized, readable header,
magic and self-address both match). -/
def map_matches (page_size : Nat) (m : MapEntry) : Prop :=
  m.size = page_size ∧
    ∃ h, m.header = some h ∧ h.magic = MAGIC ∧ h.self_address = m.start

/-- A candidate map whose header read succeeds: page-sized and readable
(this is exactly what sets `read_any` in the scan). -/
def header_readable (page_size : Nat) (m : MapEntry) : Bool :=
  (m.size == page_size) && m.header.isSome

/-! ### The stall detector (src/shmem.rs, `PerpetuoProc::check_stalls`) -/

/-- Model of `struct StallTrackerSnapshot`: the last observed slot contents
plus the tick at which that observation was installed. -/
structure StallTrackerSnapshot where
  stall_tracker : StallTracker
  last_updated : Nat
  deriving DecidableEq

/-- The per-slot loop body of `check_stalls`, processing the freshly read
slots in index order against the stored snapshots. `read_name` is the
external composite of `self.spy.process.copy(name_ptr, name_len)` and
`String::from_utf8`; its failure propagates through the Rust `?` operator,
aborting the poll while keeping the snapshot updates already made for
earlier slots (the Rust loop mutates `self.last_updates` in place). The
list-length-mismatch case is unreachable in the program (both have length
`slots_count`) and returns the snapshots unchanged. -/
def check_stalls_go (read_name : Nat → Nat → Except String String)
    (alert_interval now : Nat) (id : Nat) :
    List StallTracker → List StallTrackerSnapshot →
    Except String (List StallReport) × List StallTrackerSnapshot
  | [], snaps => (.ok [], snaps)
  | _ :: _, [] => (.ok [], [])
  | current :: cur_rest, snapshot :: snap_rest =>
    if current.is_active && (current.count == snapshot.stall_tracker.count) then
      if alert_interval ≤ now - snapshot.last_updated then
        match read_name current.metadata.name_ptr current.metadata.name_len with
        | .error e => (.error e, snapshot :: snap_rest)
        | .ok name =>
          let rest := check_stalls_go read_name alert_interval now (id + 1) cur_rest snap_rest
          (match rest.1 with
           | .error e => .error e
           | .ok stalls =>
             .ok ({ id := id, name := name,
                    thread_hint := current.metadata.thread_hint,
                    duration := now - snapshot.last_updated } :: stalls),
           snapshot :: rest.2)
      else
        let rest := check_stalls_go read_name alert_interval now (id + 1) cur_rest snap_rest
        (rest.1, snapshot :: rest.2)
    else
      let rest := check_stalls_go read_name alert_interval now (id + 1) cur_rest snap_rest
      (rest.1, ⟨current, now⟩ :: rest.2)

/-- Model of `PerpetuoProc::check_stalls`: one poll over the freshly read
slot array `current`, returning the reports (or the first name-decoding
error) together with the updated snapshot array. -/
def check_stalls (read_name : Nat → Nat → Except String String)
    (alert_interval now : Nat) (current : List StallTracker)
    (snaps : List StallTrackerSnapshot) :
    Except String (List StallReport) × List StallTrackerSnapshot :=
  check_stalls_go read_name alert_interval now 0 current snaps

/-- The snapshot array built at attach time in `PerpetuoProc::new`: every
slot of the initial read, stamped with the attach tick. -/
def attach_snapshots (slots : List StallTracker) (now : Nat) :
    List StallTrackerSnapshot :=
  slots.map (fun st => ⟨st, now⟩)

/-- One iteration of the monitor's poll loop as seen by the detector: the
tick at which the poll runs, the slot array it reads out of the target, and
the external name-read function in effect for that poll. -/
structure PollInput where
  now : Nat
  slots : List StallTracker
  read_name : Nat → Nat → Except String String

/-- The monitor's poll loop (the `loop` in `watch_process` driving
`check_once` / `check_stalls`): successive polls thread the snapshot array;
the loop stops at the first failing poll (watch_process returns). Returns
the per-poll report lists of the successful polls, and the final
snapshots. -/
def run_polls (alert_interval : Nat) :
    List PollInput → List StallTrackerSnapshot →
    List (List StallReport) × List StallTrackerSnapshot
  | [], snaps => ([], snaps)
  | p :: rest, snaps =>
    match check_stalls p.read_name alert_interval p.now p.slots snaps with
    | (.ok reports, snaps2) =>
      let r := run_polls alert_interval rest snaps2
      (reports :: r.1, r.2)
    | (.error _, snaps2) => ([], snaps2)

/-- Some poll strictly before poll `k` observed counter value `cnt` in slot
`i`. -/
abbrev observed_in (polls : List PollInput) (k i cnt : Nat) : Prop :=
  ∃ j, j < k ∧ ∃ p c, polls[j]? = some p ∧ p.slots[i]? = some c ∧ c.count = cnt

/-! ### The watch loop's error policy (src/main.rs, `watch_process`) -/

/-- What the `watch_process` loop does after one `check_once` call. -/
inductive WatchOutcome where
  | keepPolling
  | exitClean
  | exitError
  deriving DecidableEq

/-- The error policy of the `watch_process` loop: on success keep polling;
on error, probe `proc.spy.process.exe()` — if the probe fails the target
has exited (log and return Ok), otherwise return the error. `exe_ok` is
the outcome of that external liveness probe. -/
def watch_step (res : Except String Unit) (exe_ok : Bool) : WatchOutcome :=
  match res with
  | .ok _ => .keepPolling
  | .error _ => if exe_ok then .exitError else .exitClean

/-! ### Traceback rate limiting (src/main.rs, `check_once`) -/

/-- The per-fired-stall rate-limit decision in `check_once`: with
`now < *next_traceback` no traceback is taken and the deadline is
unchanged; otherwise the deadline becomes `now + traceback_interval` and
one traceback is taken. Returns (traceback taken?, new deadline). -/
def traceback_step (traceback_interval next_traceback now : Nat) : Bool × Nat :=
  if now < next_traceback then (false, next_traceback)
  else (true, now + traceback_interval)

/-- The ticks at which tracebacks are actually requested, over a sequence
of fired stalls (each element is the `Instant::now()` taken for that stall
in `check_once`; stalls of all slots feed this single sequence, and the
deadline `next_traceback` is global across them). -/
def traceback_times (traceback_interval : Nat) (next_traceback : Nat) :
    List Nat → List Nat
  | [] => []
  | now :: rest =>
    if now < next_traceback then
      traceback_times traceback_interval next_traceback rest
    else
      now :: traceback_times traceback_interval (now + traceback_interval) rest

/-! ### Thread attribution (src/main.rs, `check_once`) -/

/-- The partition loop of `check_once`: each trace goes to the `relevant`
list when `stall.thread_hint.relevant(&trace)` holds, otherwise to the
`rest` list, preserving order. -/
def partition_traces (hint : ThreadHint) :
    List StackTrace → List StackTrace × List StackTrace
  | [] => ([], [])
  | trace :: traces =>
    let r := partition_traces hint traces
    if hint.relevant trace then (trace :: r.1, r.2) else (r.1, trace :: r.2)

/-! ### The in-process allocator (src/shmem.rs) and binding layer
    (src/lib.rs) -/

/-- Rust `Vec::pop`: removes and returns the last element. -/
def vec_pop (l : List StallTracker) : Option (StallTracker × List StallTracker) :=
  match l.reverse with
  | [] => none
  | x :: xs => some (x, xs.reverse)

/-- Rust `Vec::push`: appends at the end. -/
def vec_push (l : List StallTracker) (x : StallTracker) : List StallTracker :=
  l ++ [x]

/-- Failure modes of `alloc_slot`: the freelist is empty, or the popped
slot violates `assert!(!slot.is_active())` (a panic in Rust). -/
inductive AllocError where
  | outOfSlots
  | assertFailed
  deriving DecidableEq

/-- Model of `alloc_slot` from src/shmem.rs, acting on the freelist state
(the lazily initialised `SLOT_FREELIST` contents). The Rust function leaks
a copy of `name` and stores its address; that address is external, so it
is the `name_ptr` input here, while `name_len` is the UTF-8 byte length of
`name` exactly as `str::len` computes it. The popped slot's metadata is
overwritten and its counter incremented (release ordering in Rust). -/
def alloc_slot (name : String) (name_ptr : Nat) (thread_hint : ThreadHint)
    (freelist : List StallTracker) :
    Except AllocError (StallTracker × List StallTracker) :=
  match vec_pop freelist with
  | none => .error .outOfSlots
  | some (slot, rest) =>
    if slot.is_active then .error .assertFailed
    else
      .ok ({ count := (slot.count + 1) % u64Mod,
             metadata := { name_ptr := name_ptr,
                           name_len := name.utf8ByteSize,
                           thread_hint := thread_hint } }, rest)

/-- Model of `release_slot` from src/shmem.rs: an active slot cannot be
released; otherwise the slot is pushed back on the freelist. -/
def release_slot (slot : StallTracker) (freelist : List StallTracker) :
    Except String (List StallTracker) :=
  if slot.is_active then .error "attempt to release active StallTracker"
  else .ok (vec_push freelist slot)

/-- The Python exception kinds the binding layer raises. -/
inductive PyErr where
  | valueError (msg : String)
  | runtimeError (msg : String)
  deriving DecidableEq

/-- Model of `struct PyStallTracker`: the handle holds an optional slot;
`close` takes it out. -/
structure PyStallTracker where
  stall_tracker : Option StallTracker
  deriving DecidableEq

/-- Model of `rustify` from src/lib.rs: a closed handle is a runtime
error. -/
def rustify (py : PyStallTracker) : Except PyErr StallTracker :=
  match py.stall_tracker with
  | some st => .ok st
  | none => .error (.runtimeError "attempt to use closed StallTracker")

/-- Model of `PyStallTracker::go_active`: toggling mutates the shared slot,
so the updated handle is returned. -/
def go_active (py : PyStallTracker) : Except PyErr PyStallTracker :=
  match rustify py with
  | .error e => .error e
  | .ok st =>
    if st.is_active then .error (.runtimeError "Already active")
    else .ok { stall_tracker := some st.toggle }

/-- Model of `PyStallTracker::go_idle`. -/
def go_idle (py : PyStallTracker) : Except PyErr PyStallTracker :=
  match rustify py with
  | .error e => .error e
  | .ok st =>
    if !st.is_active then .error (.runtimeError "Already idle")
    else .ok { stall_tracker := some st.toggle }

/-- Model of `PyStallTracker::is_active`. -/
def is_active_py (py : PyStallTracker) : Except PyErr Bool :=
  match rustify py with
  | .error e => .error e
  | .ok st => .ok st.is_active

/-- Model of `PyStallTracker::counter_address`. It returns the
process-local address of the slot's counter; the address value itself is
outside the embedding, so only the success/failure behaviour is kept: it
fails exactly when the handle is closed. -/
def counter_address (py : PyStallTracker) : Except PyErr Unit :=
  match rustify py with
  | .error e => .error e
  | .ok _ => .ok ()

/-- Model of `PyStallTracker::close`, acting on the handle and the
freelist. Rust's `Option::take` empties the handle before `release_slot`
runs, so the handle ends up closed on every path; on a release failure the
slot is neither pushed on the freelist nor put back into the handle. -/
def close (py : PyStallTracker) (freelist : List StallTracker) :
    Except PyErr Unit × PyStallTracker × List StallTracker :=
  match py.stall_tracker with
  | none => (.ok (), { stall_tracker := none }, freelist)
  | some st =>
    match release_slot st freelist with
    | .error e => (.error (.runtimeError e), { stall_tracker := none }, freelist)
    | .ok fl2 => (.ok (), { stall_tracker := none }, fl2)

/-! ## Helper lemmas -/

/-- The partition loop is the pair of filters by the relevance predicate. -/
theorem partition_traces_eq_filter (hint : ThreadHint) (l : List StackTrace) :
    partition_traces hint l =
      (l.filter (fun t => hint.relevant t), l.filter (fun t => !hint.relevant t)) := by
  induction l with
  | nil => rfl
  | cons t ts ih =>
    by_cases hr : hint.relevant t = true
    · simp [partition_traces, ih, List.filter_cons, hr]
    · simp [partition_traces, ih, List.filter_cons, hr,
        Bool.not_eq_true _ ▸ hr]

/-- Lower bound half of the rounding specification. -/
theorem le_round_up (v m : Nat) (hm : 0 < m) : v ≤ round_up_to_multiple v m := by
  have h1 := Nat.div_add_mod' (v + m - 1) m
  have h2 := Nat.mod_lt (v + m - 1) hm
  unfold round_up_to_multiple
  omega

/-- The rounded value is a multiple of the alignment. -/
theorem dvd_round_up (v m : Nat) : m ∣ round_up_to_multiple v m :=
  dvd_mul_left m ((v + m - 1) / m)

/-- Minimality half of the rounding specification. -/
theorem round_up_min (v m w : Nat) (hm : 0 < m) (hvw : v ≤ w) (hd : m ∣ w) :
    round_up_to_multiple v m ≤ w := by
  obtain ⟨k, rfl⟩ := hd
  unfold round_up_to_multiple
  have hle : v + m - 1 ≤ m * k + (m - 1) := by omega
  have hdiv : (v + m - 1) / m ≤ (m * k + (m - 1)) / m := Nat.div_le_div_right hle
  have heq : (m * k + (m - 1)) / m = k + (m - 1) / m := Nat.mul_add_div hm k (m - 1)
  have hz : (m - 1) / m = 0 := Nat.div_eq_of_lt (by omega)
  calc (v + m - 1) / m * m ≤ k * m := Nat.mul_le_mul_right m (by omega)
    _ = m * k := Nat.mul_comm _ _

/-- Rounding a value that is already a multiple is the identity. -/
theorem round_up_eq_self (v m : Nat) (hm : 0 < m) (hd : m ∣ v) :
    round_up_to_multiple v m = v :=
  Nat.le_antisymm (round_up_min v m v hm le_rfl hd) (le_round_up v m hm)

/-- When no candidate map matches, the scan ends in one of the two final
errors, selected by whether any candidate header was readable. -/
theorem discover_go_no_match (page_size : Nat) (maps : List MapEntry)
    (h : ∀ m ∈ maps, ¬ map_matches page_size m) (b : Bool) :
    discover_go page_size b maps =
      if b || maps.any (header_readable page_size) then .notInstrumented
      else .permissionDenied := by
  induction maps generalizing b with
  | nil => simp [discover_go]
  | cons m rest ih =>
    have hm := h m (List.mem_cons_self m rest)
    have hrest : ∀ x ∈ rest, ¬ map_matches page_size x :=
      fun x hx => h x (List.mem_cons_of_mem m hx)
    by_cases hsize : m.size = page_size
    · cases hh : m.header with
      | none =>
        simp [discover_go, hsize, hh, ih hrest, header_readable, List.any_cons]
      | some header =>
        have hmm : header.magic ≠ MAGIC ∨ header.self_address ≠ m.start := by
          by_contra hc
          push_neg at hc
          exact hm ⟨hsize, header, hh, hc.1, hc.2⟩
        have hread : header_readable page_size m = true := by
          simp [header_readable, hsize, hh]
        rcases hmm with hmm | hmm
        · simp [discover_go, hsize, hh, hmm, ih hrest, hread, List.any_cons]
        · by_cases hmg : header.magic = MAGIC
          · simp [discover_go, hsize, hh, hmg, hmm, ih hrest, hread, List.any_cons]
          · simp [discover_go, hsize, hh, hmg, ih hrest, hread, List.any_cons]
    · have hread : header_readable page_size m = false := by
        simp [header_readable, hsize]
      simp [discover_go, hsize, ih hrest, hread, List.any_cons]

/-! ## Claims -/

/-- C5: for every stack dump taken for a stalled slot, the partition of
per-thread traces is exact: with the GIL hint a trace lands in the relevant
list iff its owns-GIL flag is true, with a thread-id hint iff its thread id
equals the hint; all other traces land in the other list. -/
theorem c5_attribution (hint : ThreadHint) (traces : List StackTrace)
    (trace : StackTrace) :
    (trace ∈ (partition_traces hint traces).1 ↔
      trace ∈ traces ∧ hint.relevant trace = true) ∧
    (trace ∈ (partition_traces hint traces).2 ↔
      trace ∈ traces ∧ hint.relevant trace = false) ∧
    (GIL.relevant trace = trace.owns_gil) ∧
    (∀ t, t ≠ 0 → (ThreadHint.mk t).relevant trace = (trace.thread_id == t)) := by
  refine ⟨?_, ?_, ?_, ?_⟩
  · rw [partition_traces_eq_filter]
    simp [List.mem_filter]
  · rw [partition_traces_eq_filter]
    simp [List.mem_filter]
  · simp [ThreadHint.relevant, ThreadHint.is_gil, GIL]
  · intro t ht
    simp [ThreadHint.relevant, ThreadHint.is_gil, ht]

/-- Witness for C5 at a concrete dump: thread 7 is relevant to the hint
naming thread 7, and thread 8 is not. -/
theorem c5_attribution_witness :
    (⟨7, false⟩ : StackTrace) ∈
      (partition_traces ⟨7⟩ [⟨7, false⟩, ⟨8, true⟩]).1 ∧
    ThreadHint.relevant ⟨7⟩ ⟨8, true⟩ = false :=
  ⟨(c5_attribution ⟨7⟩ [⟨7, false⟩, ⟨8, true⟩] ⟨7, false⟩).1.mpr
      ⟨by decide, by decide⟩,
    ((c5_attribution ⟨7⟩ [] ⟨8, true⟩).2.2.2 7 (by decide)).trans (by decide)⟩

/-- C6: on a successful discovery match the slot array location is the
least multiple of the slot alignment at or above the header end, and the
slot count, computed by truncating division from the map end, equals the
page-layout formula floor((page size - header size) / slot size); the
latter uses that a page start is aligned. -/
theorem c6_layout :
    (∀ v m, 0 < m →
      v ≤ round_up_to_multiple v m ∧ m ∣ round_up_to_multiple v m ∧
        ∀ w, v ≤ w → m ∣ w → round_up_to_multiple v m ≤ w) ∧
    (∀ start psize, align_of_StallTracker ∣ start →
      slots_count start psize =
        (psize - size_of_ShmemHeader) / size_of_StallTracker) := by
  constructor
  · intro v m hm
    exact ⟨le_round_up v m hm, dvd_round_up v m,
      fun w hvw hd => round_up_min v m w hm hvw hd⟩
  · intro start psize hdvd
    have h8 : align_of_StallTracker ∣ start + size_of_ShmemHeader :=
      Nat.dvd_add hdvd ⟨4, rfl⟩
    unfold slots_count slots_ptr
    rw [round_up_eq_self _ _ (by decide) h8, Nat.add_sub_add_left]

/-- Witness for C6 at a concrete page: rounding 37 up to a multiple of 8
is at least 37, and a page of 4096 bytes starting at address 8192 holds
(4096 - 32) / 32 = 127 slots. -/
theorem c6_layout_witness :
    37 ≤ round_up_to_multiple 37 8 ∧
    slots_count 8192 4096 = (4096 - 32) / 32 :=
  ⟨(c6_layout.1 37 8 (by decide)).1,
    c6_layout.2 8192 4096 ⟨1024, rfl⟩⟩

/-- C7: when the discovery scan runs through all candidate maps without a
match, it fails with the not-instrumented error iff at least one candidate
header read succeeded (even with wrong magic or self address), and with the
permission-denied diagnostic iff no candidate header could be read. -/
theorem c7_discovery_errors (page_size : Nat) (maps : List MapEntry)
    (h : ∀ m ∈ maps, ¬ map_matches page_size m) :
    (discover page_size maps = .notInstrumented ↔
      ∃ m ∈ maps, header_readable page_size m = true) ∧
    (discover page_size maps = .permissionDenied ↔
      ∀ m ∈ maps, header_readable page_size m = false) := by
  have hmain := discover_go_no_match page_size maps h false
  cases hany : maps.any (header_readable page_size) with
  | false =>
    have hval : discover page_size maps = .permissionDenied := by
      unfold discover
      rw [hmain, hany]
      rfl
    have hall : ∀ m ∈ maps, header_readable page_size m = false := by
      intro m hm
      cases hq : header_readable page_size m
      · rfl
      · have := List.any_eq_true.mpr ⟨m, hm, hq⟩
        rw [hany] at this
        exact absurd this Bool.false_ne_true
    constructor
    · rw [hval]
      refine iff_of_false (by simp) ?_
      rintro ⟨m, hm, hp⟩
      rw [hall m hm] at hp
      exact Bool.false_ne_true hp
    · rw [hval]
      exact iff_of_true rfl hall
  | true =>
    have hval : discover page_size maps = .notInstrumented := by
      unfold discover
      rw [hmain, hany]
      rfl
    obtain ⟨m, hm, hp⟩ := List.any_eq_true.mp hany
    constructor
    · rw [hval]
      exact iff_of_true rfl ⟨m, hm, hp⟩
    · rw [hval]
      refine iff_of_false (by simp) ?_
      intro hall
      rw [hall m hm] at hp
      exact Bool.false_ne_true hp

/-- Witness for C7 at a concrete map list: a single candidate-sized map
whose header read fails yields the permission diagnostic. -/
theorem c7_discovery_errors_witness :
    discover 4096 [⟨0, 4096, none, false⟩] = .permissionDenied :=
  (c7_discovery_errors 4096 [⟨0, 4096, none, false⟩]
      (by
        intro m hm
        rw [List.mem_singleton] at hm
        subst hm
        rintro ⟨-, hdr, hh, -⟩
        cases hh)).2.mpr
    (by
      intro m hm
      rw [List.mem_singleton] at hm
      subst hm
      rfl)


/-- Unfolding lemma for alloc_slot when the freelist is empty. -/
theorem alloc_slot_pop_none (name : String) (name_ptr : Nat)
    (hint : ThreadHint) (freelist : List StallTracker)
    (h : vec_pop freelist = none) :
    alloc_slot name name_ptr hint freelist = .error .outOfSlots := by
  unfold alloc_slot
  rw [h]

/-- Unfolding lemma for alloc_slot when the popped slot is idle. -/
theorem alloc_slot_pop_idle (name : String) (name_ptr : Nat)
    (hint : ThreadHint) (freelist rest : List StallTracker)
    (slot : StallTracker)
    (h : vec_pop freelist = some (slot, rest))
    (hidle : slot.is_active = false) :
    alloc_slot name name_ptr hint freelist =
      .ok ({ count := (slot.count + 1) % u64Mod,
             metadata := { name_ptr := name_ptr,
                           name_len := name.utf8ByteSize,
                           thread_hint := hint } }, rest) := by
  unfold alloc_slot
  rw [h]
  simp [hidle]

/-- Unfolding lemma for alloc_slot when the popped slot is active (the
assertion fires). -/
theorem alloc_slot_pop_active (name : String) (name_ptr : Nat)
    (hint : ThreadHint) (freelist rest : List StallTracker)
    (slot : StallTracker)
    (h : vec_pop freelist = some (slot, rest))
    (hact : slot.is_active = true) :
    alloc_slot name name_ptr hint freelist = .error .assertFailed := by
  unfold alloc_slot
  rw [h]
  simp [hact]

/-- C8 counterexample: called with the empty string and a one-slot
freelist, alloc_slot succeeds (allocating a slot with name_len = 0) rather
than surfacing an error. -/
theorem c8_counterexample :
    alloc_slot "" 0 GIL [⟨0, ⟨0, 0, GIL⟩⟩] =
      .ok (⟨1, ⟨0, 0, GIL⟩⟩, []) := by
  rw [alloc_slot_pop_idle "" 0 GIL [⟨0, ⟨0, 0, GIL⟩⟩] [] ⟨0, ⟨0, 0, GIL⟩⟩ rfl rfl]
  rfl

/-- C8 amended: alloc_slot does not validate that the name is nonempty;
with the empty string and an idle slot on the freelist it succeeds,
recording name_len = 0, and it errors only when the freelist is empty
(out of slots). -/
theorem c8_alloc_empty_name (name_ptr : Nat) (hint : ThreadHint)
    (freelist rest : List StallTracker) (slot : StallTracker)
    (hpop : vec_pop freelist = some (slot, rest))
    (hidle : slot.is_active = false) :
    alloc_slot "" name_ptr hint freelist =
      .ok ({ count := (slot.count + 1) % u64Mod,
             metadata := { name_ptr := name_ptr, name_len := 0,
                           thread_hint := hint } }, rest) ∧
    alloc_slot "" name_ptr hint [] = .error .outOfSlots := by
  constructor
  · rw [alloc_slot_pop_idle "" name_ptr hint freelist rest slot hpop hidle]
    rfl
  · exact alloc_slot_pop_none "" name_ptr hint [] rfl

/-- Witness for C8's amended claim on a concrete freelist. -/
theorem c8_alloc_empty_name_witness :
    alloc_slot "" 3 GIL [⟨2, ⟨9, 1, GIL⟩⟩] = .ok (⟨3, ⟨3, 0, GIL⟩⟩, []) ∧
    alloc_slot "" 3 GIL [] = .error .outOfSlots :=
  have h := c8_alloc_empty_name 3 GIL [⟨2, ⟨9, 1, GIL⟩⟩] [] ⟨2, ⟨9, 1, GIL⟩⟩
    rfl rfl
  ⟨h.1, h.2⟩

/-- C9: a freshly allocated slot is active - its counter is odd - so on a
new handle the first go_active fails with "Already active" and the first
valid toggle is go_idle. -/
theorem c9_alloc_active (name : String) (name_ptr : Nat) (hint : ThreadHint)
    (freelist rest : List StallTracker) (slot : StallTracker)
    (h : alloc_slot name name_ptr hint freelist = .ok (slot, rest)) :
    slot.is_active = true ∧
    go_active ⟨some slot⟩ = .error (.runtimeError "Already active") ∧
    go_idle ⟨some slot⟩ = .ok ⟨some slot.toggle⟩ ∧
    is_active_py ⟨some slot⟩ = .ok true := by
  cases hpop : vec_pop freelist with
  | none =>
    rw [alloc_slot_pop_none name name_ptr hint freelist hpop] at h
    exact absurd h (by simp)
  | some sr =>
    obtain ⟨s0, r0⟩ := sr
    cases hact : s0.is_active with
    | true =>
      rw [alloc_slot_pop_active name name_ptr hint freelist r0 s0 hpop hact] at h
      exact absurd h (by simp)
    | false =>
      rw [alloc_slot_pop_idle name name_ptr hint freelist r0 s0 hpop hact] at h
      injection h with h
      injection h with h1 h2
      have hc0 : s0.count % 2 = 0 := by
        unfold StallTracker.is_active at hact
        simp at hact
        omega
      have hodd : slot.count % 2 = 1 := by
        rw [← h1]
        have hdvd : (2 : Nat) ∣ u64Mod := ⟨2 ^ 63, by norm_num [u64Mod]⟩
        show ((s0.count + 1) % u64Mod) % 2 = 1
        rw [Nat.mod_mod_of_dvd _ hdvd]
        omega
      have hactive : slot.is_active = true := by
        unfold StallTracker.is_active
        simp [hodd]
      refine ⟨hactive, ?_, ?_, ?_⟩
      · unfold go_active rustify
        simp [hactive]
      · unfold go_idle rustify
        simp [hactive]
      · unfold is_active_py rustify
        simp [hactive]

/-- Witness for C9 on a concrete allocation from a one-slot freelist. -/
theorem c9_alloc_active_witness :
    StallTracker.is_active ⟨1, ⟨5, 1, GIL⟩⟩ = true ∧
    go_active ⟨some ⟨1, ⟨5, 1, GIL⟩⟩⟩ = .error (.runtimeError "Already active") :=
  have h := c9_alloc_active "x" 5 GIL [⟨0, ⟨0, 0, GIL⟩⟩] [] ⟨1, ⟨5, 1, GIL⟩⟩
    (by
      rw [alloc_slot_pop_idle "x" 5 GIL [⟨0, ⟨0, 0, GIL⟩⟩] [] ⟨0, ⟨0, 0, GIL⟩⟩ rfl rfl]
      rfl)
  ⟨h.1, h.2.1⟩

/-- C10: closing a handle whose slot is active returns the
release-while-active error but still leaves the handle closed; the slot is
not pushed back on the freelist and not kept by the handle, every
subsequent operation on the handle fails with the use-after-close error,
and a second close succeeds without releasing anything. -/
theorem c10_close_active (st : StallTracker) (freelist : List StallTracker)
    (hact : st.is_active = true) :
    close ⟨some st⟩ freelist =
      (.error (.runtimeError "attempt to release active StallTracker"),
        ⟨none⟩, freelist) ∧
    go_active ⟨none⟩ = .error (.runtimeError "attempt to use closed StallTracker") ∧
    go_idle ⟨none⟩ = .error (.runtimeError "attempt to use closed StallTracker") ∧
    is_active_py ⟨none⟩ = .error (.runtimeError "attempt to use closed StallTracker") ∧
    counter_address ⟨none⟩ =
      .error (.runtimeError "attempt to use closed StallTracker") ∧
    close ⟨none⟩ freelist = (.ok (), ⟨none⟩, freelist) := by
  refine ⟨?_, rfl, rfl, rfl, rfl, rfl⟩
  unfold close release_slot
  simp [hact]

/-- Witness for C10 on a concrete active slot. -/
theorem c10_close_active_witness :
    close ⟨some ⟨1, ⟨0, 0, GIL⟩⟩⟩ [] =
      (.error (.runtimeError "attempt to release active StallTracker"),
        ⟨none⟩, []) ∧
    go_idle ⟨none⟩ = .error (.runtimeError "attempt to use closed StallTracker") :=
  have h := c10_close_active ⟨1, ⟨0, 0, GIL⟩⟩ [] rfl
  ⟨h.1, h.2.2.1⟩

/-- Tracebacks are taken no earlier than the running deadline, and any two
taken tracebacks are at least one suppression interval apart. -/
theorem traceback_times_sep (ti : Nat) :
    ∀ (stalls : List Nat) (next : Nat),
      (∀ d ∈ traceback_times ti next stalls, next ≤ d) ∧
      List.Pairwise (fun x y => x + ti ≤ y) (traceback_times ti next stalls) := by
  intro stalls
  induction stalls with
  | nil =>
    intro next
    simp [traceback_times]
  | cons now rest ih =>
    intro next
    by_cases h : now < next
    · rw [traceback_times, if_pos h]
      exact ih next
    · rw [traceback_times, if_neg h]
      constructor
      · intro d hd
        rcases List.mem_cons.mp hd with rfl | hd
        · omega
        · have := (ih (now + ti)).1 d hd
          omega
      · refine List.pairwise_cons.mpr ⟨?_, (ih (now + ti)).2⟩
        intro y hy
        exact (ih (now + ti)).1 y hy

/-- A list whose consecutive elements are at least ti apart, all lying in
the interval from lo to hi, has at most (hi - lo) / ti + 1 elements. -/
theorem sep_length_le (ti : Nat) (hti : 0 < ti) :
    ∀ (l : List Nat) (lo hi : Nat),
      List.Pairwise (fun x y => x + ti ≤ y) l →
      (∀ x ∈ l, lo ≤ x ∧ x ≤ hi) →
      l.length ≤ (hi - lo) / ti + 1 := by
  intro l
  induction l with
  | nil =>
    intro lo hi _ _
    simp
  | cons d rest ih =>
    intro lo hi hp hb
    rcases List.pairwise_cons.mp hp with ⟨hd, hp2⟩
    have hdb := hb d (List.mem_cons_self d rest)
    have hb2 : ∀ x ∈ rest, d + ti ≤ x ∧ x ≤ hi := fun x hx =>
      ⟨hd x hx, (hb x (List.mem_cons_of_mem d hx)).2⟩
    have hrest := ih (d + ti) hi hp2 hb2
    cases rest with
    | nil => simp
    | cons y ys =>
      have hy := hb2 y (List.mem_cons_self y ys)
      have h1 : ti ≤ hi - d := by omega
      have h2 : (hi - d) / ti = (hi - d - ti) / ti + 1 :=
        Nat.div_eq_sub_div hti h1
      have h3 : hi - (d + ti) = hi - d - ti := by omega
      have h4 : (hi - (d + ti)) / ti + 1 ≤ (hi - d) / ti := by
        rw [h3, h2]
      have h5 : (hi - d) / ti ≤ (hi - lo) / ti :=
        Nat.div_le_div_right (by omega)
      simp only [List.length_cons] at hrest ⊢
      omega

/-- C4: for each fired stall, when now is before the deadline no traceback
is requested and the deadline is unchanged; otherwise the deadline becomes
now plus the suppression interval and exactly one traceback is requested;
consequently, across any window of length W (and for a positive suppression
interval) at most 1 + W / traceback_suppress tracebacks are requested,
globally across all slots. -/
theorem c4_rate_limit :
    (∀ ti next now,
      (now < next → traceback_step ti next now = (false, next)) ∧
      (next ≤ now → traceback_step ti next now = (true, now + ti))) ∧
    (∀ ti next stalls a W, 0 < ti →
      ((traceback_times ti next stalls).filter
          (fun t => decide (a ≤ t ∧ t ≤ a + W))).length ≤ 1 + W / ti) := by
  constructor
  · intro ti next now
    constructor
    · intro h
      rw [traceback_step, if_pos h]
    · intro h
      rw [traceback_step, if_neg (by omega)]
  · intro ti next stalls a W hti
    have hsep := (traceback_times_sep ti stalls next).2
    have hpf : List.Pairwise (fun x y => x + ti ≤ y)
        ((traceback_times ti next stalls).filter
          (fun t => decide (a ≤ t ∧ t ≤ a + W))) :=
      hsep.sublist (List.filter_sublist _)
    have hbnd : ∀ x ∈ (traceback_times ti next stalls).filter
        (fun t => decide (a ≤ t ∧ t ≤ a + W)), a ≤ x ∧ x ≤ a + W := by
      intro x hx
      have := (List.mem_filter.mp hx).2
      exact of_decide_eq_true this
    have := sep_length_le ti hti _ a (a + W) hpf hbnd
    have hW : (a + W - a) / ti = W / ti := by
      rw [Nat.add_sub_cancel_left]
    omega

/-- Witness for C4 at concrete times: a stall before the deadline is
rate-limited, one after it moves the deadline, and three stalls in a
60-tick window with a 30-tick suppression produce at most three
tracebacks. -/
theorem c4_rate_limit_witness :
    traceback_step 30 10 5 = (false, 10) ∧
    traceback_step 30 10 50 = (true, 80) ∧
    ((traceback_times 30 0 [0, 10, 35]).filter
        (fun t => decide (0 ≤ t ∧ t ≤ 0 + 60))).length ≤ 1 + 60 / 30 :=
  ⟨(c4_rate_limit.1 30 10 5).1 (by omega),
    (c4_rate_limit.1 30 10 50).2 (by omega),
    c4_rate_limit.2 30 0 [0, 10, 35] 0 60 (by omega)⟩

/-! ## Detector lemmas -/

/-- The firing guard of the detector, as a proposition. -/
theorem stall_cond_iff (c : StallTracker) (s : StallTrackerSnapshot) :
    ((c.is_active && (c.count == s.stall_tracker.count)) = true) ↔
      (c.is_active = true ∧ c.count = s.stall_tracker.count) := by
  simp [Bool.and_eq_true, beq_iff_eq]

/-- Activity is oddness of the counter. -/
theorem is_active_iff (c : StallTracker) :
    c.is_active = true ↔ c.count % 2 = 1 := by
  simp [StallTracker.is_active, beq_iff_eq]

/-- Equation: an exhausted slot list ends the scan. -/
theorem check_stalls_go_nil (rn : Nat → Nat → Except String String)
    (a now id : Nat) (ss : List StallTrackerSnapshot) :
    check_stalls_go rn a now id [] ss = (.ok [], ss) := rfl

/-- Equation: the unreachable snapshot-exhausted case. -/
theorem check_stalls_go_cons_nil (rn : Nat → Nat → Except String String)
    (a now id : Nat) (c : StallTracker) (cs : List StallTracker) :
    check_stalls_go rn a now id (c :: cs) [] = (.ok [], []) := rfl

/-- Equation: a fired slot whose name read fails aborts the scan. -/
theorem check_stalls_go_cons_fired_err (rn : Nat → Nat → Except String String)
    (a now id : Nat) (c : StallTracker) (cs : List StallTracker)
    (s : StallTrackerSnapshot) (ss : List StallTrackerSnapshot) (e : String)
    (hcond : (c.is_active && (c.count == s.stall_tracker.count)) = true)
    (helap : a ≤ now - s.last_updated)
    (hrn : rn c.metadata.name_ptr c.metadata.name_len = .error e) :
    check_stalls_go rn a now id (c :: cs) (s :: ss) = (.error e, s :: ss) := by
  simp only [check_stalls_go]
  rw [if_pos hcond, if_pos helap, hrn]

/-- Equation: a fired slot with a decodable name prepends its report and
keeps its snapshot. -/
theorem check_stalls_go_cons_fired_ok (rn : Nat → Nat → Except String String)
    (a now id : Nat) (c : StallTracker) (cs : List StallTracker)
    (s : StallTrackerSnapshot) (ss : List StallTrackerSnapshot) (name : String)
    (hcond : (c.is_active && (c.count == s.stall_tracker.count)) = true)
    (helap : a ≤ now - s.last_updated)
    (hrn : rn c.metadata.name_ptr c.metadata.name_len = .ok name) :
    check_stalls_go rn a now id (c :: cs) (s :: ss) =
      (match (check_stalls_go rn a now (id + 1) cs ss).1 with
       | .error e => .error e
       | .ok stalls =>
         .ok ({ id := id, name := name,
                thread_hint := c.metadata.thread_hint,
                duration := now - s.last_updated } :: stalls),
       s :: (check_stalls_go rn a now (id + 1) cs ss).2) := by
  simp only [check_stalls_go]
  rw [if_pos hcond, if_pos helap, hrn]

/-- Equation: an odd-and-equal slot below the alert threshold keeps its
snapshot and emits nothing. -/
theorem check_stalls_go_cons_below (rn : Nat → Nat → Except String String)
    (a now id : Nat) (c : StallTracker) (cs : List StallTracker)
    (s : StallTrackerSnapshot) (ss : List StallTrackerSnapshot)
    (hcond : (c.is_active && (c.count == s.stall_tracker.count)) = true)
    (hnot : ¬ a ≤ now - s.last_updated) :
    check_stalls_go rn a now id (c :: cs) (s :: ss) =
      ((check_stalls_go rn a now (id + 1) cs ss).1,
        s :: (check_stalls_go rn a now (id + 1) cs ss).2) := by
  simp only [check_stalls_go]
  rw [if_pos hcond, if_neg hnot]

/-- Equation: a changed-or-even slot replaces its snapshot. -/
theorem check_stalls_go_cons_changed (rn : Nat → Nat → Except String String)
    (a now id : Nat) (c : StallTracker) (cs : List StallTracker)
    (s : StallTrackerSnapshot) (ss : List StallTrackerSnapshot)
    (hcond : ¬ ((c.is_active && (c.count == s.stall_tracker.count)) = true)) :
    check_stalls_go rn a now id (c :: cs) (s :: ss) =
      ((check_stalls_go rn a now (id + 1) cs ss).1,
        ⟨c, now⟩ :: (check_stalls_go rn a now (id + 1) cs ss).2) := by
  simp only [check_stalls_go]
  rw [if_neg hcond]

/-- Component equation: first projection of the fired-error branch. -/
theorem go_fired_err_fst (rn : Nat → Nat → Except String String)
    (a now id : Nat) (c : StallTracker) (cs : List StallTracker)
    (s : StallTrackerSnapshot) (ss : List StallTrackerSnapshot) (e : String)
    (hcond : (c.is_active && (c.count == s.stall_tracker.count)) = true)
    (helap : a ≤ now - s.last_updated)
    (hrn : rn c.metadata.name_ptr c.metadata.name_len = .error e) :
    (check_stalls_go rn a now id (c :: cs) (s :: ss)).1 = .error e := by
  rw [check_stalls_go_cons_fired_err rn a now id c cs s ss e hcond helap hrn]

/-- Component equation: second projection of the fired-error branch. -/
theorem go_fired_err_snd (rn : Nat → Nat → Except String String)
    (a now id : Nat) (c : StallTracker) (cs : List StallTracker)
    (s : StallTrackerSnapshot) (ss : List StallTrackerSnapshot) (e : String)
    (hcond : (c.is_active && (c.count == s.stall_tracker.count)) = true)
    (helap : a ≤ now - s.last_updated)
    (hrn : rn c.metadata.name_ptr c.metadata.name_len = .error e) :
    (check_stalls_go rn a now id (c :: cs) (s :: ss)).2 = s :: ss := by
  rw [check_stalls_go_cons_fired_err rn a now id c cs s ss e hcond helap hrn]

/-- Component equation: first projection of the fired branch when the rest
of the scan succeeds. -/
theorem go_fired_ok_fst_ok (rn : Nat → Nat → Except String String)
    (a now id : Nat) (c : StallTracker) (cs : List StallTracker)
    (s : StallTrackerSnapshot) (ss : List StallTrackerSnapshot) (name : String)
    (stalls : List StallReport)
    (hcond : (c.is_active && (c.count == s.stall_tracker.count)) = true)
    (helap : a ≤ now - s.last_updated)
    (hrn : rn c.metadata.name_ptr c.metadata.name_len = .ok name)
    (hrec : (check_stalls_go rn a now (id + 1) cs ss).1 = .ok stalls) :
    (check_stalls_go rn a now id (c :: cs) (s :: ss)).1 =
      .ok ({ id := id, name := name, thread_hint := c.metadata.thread_hint,
             duration := now - s.last_updated } :: stalls) := by
  rw [check_stalls_go_cons_fired_ok rn a now id c cs s ss name hcond helap hrn]
  rw [hrec]

/-- Component equation: first projection of the fired branch when the rest
of the scan fails. -/
theorem go_fired_ok_fst_err (rn : Nat → Nat → Except String String)
    (a now id : Nat) (c : StallTracker) (cs : List StallTracker)
    (s : StallTrackerSnapshot) (ss : List StallTrackerSnapshot) (name : String)
    (e2 : String)
    (hcond : (c.is_active && (c.count == s.stall_tracker.count)) = true)
    (helap : a ≤ now - s.last_updated)
    (hrn : rn c.metadata.name_ptr c.metadata.name_len = .ok name)
    (hrec : (check_stalls_go rn a now (id + 1) cs ss).1 = .error e2) :
    (check_stalls_go rn a now id (c :: cs) (s :: ss)).1 = .error e2 := by
  rw [check_stalls_go_cons_fired_ok rn a now id c cs s ss name hcond helap hrn]
  rw [hrec]

/-- Component equation: second projection of the fired branch. -/
theorem go_fired_ok_snd (rn : Nat → Nat → Except String String)
    (a now id : Nat) (c : StallTracker) (cs : List StallTracker)
    (s : StallTrackerSnapshot) (ss : List StallTrackerSnapshot) (name : String)
    (hcond : (c.is_active && (c.count == s.stall_tracker.count)) = true)
    (helap : a ≤ now - s.last_updated)
    (hrn : rn c.metadata.name_ptr c.metadata.name_len = .ok name) :
    (check_stalls_go rn a now id (c :: cs) (s :: ss)).2 =
      s :: (check_stalls_go rn a now (id + 1) cs ss).2 := by
  rw [check_stalls_go_cons_fired_ok rn a now id c cs s ss name hcond helap hrn]

/-- Component equation: first projection of the below-threshold branch. -/
theorem go_below_fst (rn : Nat → Nat → Except String String)
    (a now id : Nat) (c : StallTracker) (cs : List StallTracker)
    (s : StallTrackerSnapshot) (ss : List StallTrackerSnapshot)
    (hcond : (c.is_active && (c.count == s.stall_tracker.count)) = true)
    (hnot : ¬ a ≤ now - s.last_updated) :
    (check_stalls_go rn a now id (c :: cs) (s :: ss)).1 =
      (check_stalls_go rn a now (id + 1) cs ss).1 := by
  rw [check_stalls_go_cons_below rn a now id c cs s ss hcond hnot]

/-- Component equation: second projection of the below-threshold branch. -/
theorem go_below_snd (rn : Nat → Nat → Except String String)
    (a now id : Nat) (c : StallTracker) (cs : List StallTracker)
    (s : StallTrackerSnapshot) (ss : List StallTrackerSnapshot)
    (hcond : (c.is_active && (c.count == s.stall_tracker.count)) = true)
    (hnot : ¬ a ≤ now - s.last_updated) :
    (check_stalls_go rn a now id (c :: cs) (s :: ss)).2 =
      s :: (check_stalls_go rn a now (id + 1) cs ss).2 := by
  rw [check_stalls_go_cons_below rn a now id c cs s ss hcond hnot]

/-- Component equation: first projection of the changed-or-even branch. -/
theorem go_changed_fst (rn : Nat → Nat → Except String String)
    (a now id : Nat) (c : StallTracker) (cs : List StallTracker)
    (s : StallTrackerSnapshot) (ss : List StallTrackerSnapshot)
    (hcond : ¬ ((c.is_active && (c.count == s.stall_tracker.count)) = true)) :
    (check_stalls_go rn a now id (c :: cs) (s :: ss)).1 =
      (check_stalls_go rn a now (id + 1) cs ss).1 := by
  rw [check_stalls_go_cons_changed rn a now id c cs s ss hcond]

/-- Component equation: second projection of the changed-or-even branch. -/
theorem go_changed_snd (rn : Nat → Nat → Except String String)
    (a now id : Nat) (c : StallTracker) (cs : List StallTracker)
    (s : StallTrackerSnapshot) (ss : List StallTrackerSnapshot)
    (hcond : ¬ ((c.is_active && (c.count == s.stall_tracker.count)) = true)) :
    (check_stalls_go rn a now id (c :: cs) (s :: ss)).2 =
      StallTrackerSnapshot.mk c now :: (check_stalls_go rn a now (id + 1) cs ss).2 := by
  rw [check_stalls_go_cons_changed rn a now id c cs s ss hcond]

/-- Every report of a successful scan originates from a slot that was odd,
bit-equal to its snapshot, and past the alert threshold; the report id
addresses that slot and its duration is measured from the snapshot. -/
theorem check_stalls_go_report_origin (rn : Nat → Nat → Except String String)
    (a now : Nat) :
    ∀ (cs : List StallTracker) (ss : List StallTrackerSnapshot) (id : Nat)
      (reports : List StallReport) (r : StallReport),
      (check_stalls_go rn a now id cs ss).1 = .ok reports →
      r ∈ reports →
      ∃ i c s, r.id = id + i ∧ cs[i]? = some c ∧ ss[i]? = some s ∧
        c.is_active = true ∧ c.count = s.stall_tracker.count ∧
        a ≤ now - s.last_updated ∧ r.duration = now - s.last_updated := by
  intro cs
  induction cs with
  | nil =>
    intro ss id reports r hok hr
    rw [check_stalls_go_nil] at hok
    injection hok with hok
    subst hok
    cases hr
  | cons c0 cs ih =>
    intro ss id reports r hok hr
    cases ss with
    | nil =>
      rw [check_stalls_go_cons_nil] at hok
      injection hok with hok
      subst hok
      cases hr
    | cons s0 ss =>
      by_cases hcond : (c0.is_active && (c0.count == s0.stall_tracker.count)) = true
      · by_cases helap : a ≤ now - s0.last_updated
        · cases hrn : rn c0.metadata.name_ptr c0.metadata.name_len with
          | error e =>
            rw [go_fired_err_fst rn a now id c0 cs s0 ss e hcond helap hrn] at hok
            exact absurd hok (by simp)
          | ok name =>
            cases hrec : (check_stalls_go rn a now (id + 1) cs ss).1 with
            | error e =>
              rw [go_fired_ok_fst_err rn a now id c0 cs s0 ss name e hcond helap hrn hrec] at hok
              exact absurd hok (by simp)
            | ok stalls =>
              rw [go_fired_ok_fst_ok rn a now id c0 cs s0 ss name stalls hcond helap hrn hrec] at hok
              injection hok with hok
              subst hok
              rcases List.mem_cons.mp hr with rfl | hr2
              · refine ⟨0, c0, s0, by simp, by simp, by simp, ?_, ?_, helap, rfl⟩
                · exact ((stall_cond_iff c0 s0).mp hcond).1
                · exact ((stall_cond_iff c0 s0).mp hcond).2
              · obtain ⟨i, c2, s2, hid, hc2, hs2, h4, h5, h6, h7⟩ :=
                  ih ss (id + 1) stalls r hrec hr2
                exact ⟨i + 1, c2, s2, by omega, by simpa using hc2,
                  by simpa using hs2, h4, h5, h6, h7⟩
        · rw [go_below_fst rn a now id c0 cs s0 ss hcond helap] at hok
          obtain ⟨i, c2, s2, hid, hc2, hs2, h4, h5, h6, h7⟩ :=
            ih ss (id + 1) reports r hok hr
          exact ⟨i + 1, c2, s2, by omega, by simpa using hc2,
            by simpa using hs2, h4, h5, h6, h7⟩
      · rw [go_changed_fst rn a now id c0 cs s0 ss hcond] at hok
        obtain ⟨i, c2, s2, hid, hc2, hs2, h4, h5, h6, h7⟩ :=
          ih ss (id + 1) reports r hok hr
        exact ⟨i + 1, c2, s2, by omega, by simpa using hc2,
          by simpa using hs2, h4, h5, h6, h7⟩

/-- On a successful scan, every fired slot produces a report carrying its
slot id. -/
theorem check_stalls_go_fired_report (rn : Nat → Nat → Except String String)
    (a now : Nat) :
    ∀ (cs : List StallTracker) (ss : List StallTrackerSnapshot) (id i : Nat)
      (reports : List StallReport) (c : StallTracker) (s : StallTrackerSnapshot),
      (check_stalls_go rn a now id cs ss).1 = .ok reports →
      cs[i]? = some c → ss[i]? = some s →
      c.is_active = true → c.count = s.stall_tracker.count →
      a ≤ now - s.last_updated →
      ∃ r ∈ reports, r.id = id + i := by
  intro cs
  induction cs with
  | nil =>
    intro ss id i reports c s hok hc hs ha he helap
    simp at hc
  | cons c0 cs ih =>
    intro ss id i reports c s hok hc hs ha he helap
    cases ss with
    | nil => simp at hs
    | cons s0 ss =>
      cases i with
      | zero =>
        simp only [List.getElem?_cons_zero, Option.some.injEq] at hc hs
        subst hc
        subst hs
        have hcond : (c0.is_active && (c0.count == s0.stall_tracker.count)) = true :=
          (stall_cond_iff c0 s0).mpr ⟨ha, he⟩
        cases hrn : rn c0.metadata.name_ptr c0.metadata.name_len with
        | error e =>
          rw [go_fired_err_fst rn a now id c0 cs s0 ss e hcond helap hrn] at hok
          exact absurd hok (by simp)
        | ok name =>
          cases hrec : (check_stalls_go rn a now (id + 1) cs ss).1 with
          | error e =>
            rw [go_fired_ok_fst_err rn a now id c0 cs s0 ss name e hcond helap hrn hrec] at hok
            exact absurd hok (by simp)
          | ok stalls =>
            rw [go_fired_ok_fst_ok rn a now id c0 cs s0 ss name stalls hcond helap hrn hrec] at hok
            injection hok with hok
            subst hok
            exact ⟨_, List.mem_cons_self _ _, by simp⟩
      | succ i =>
        rw [List.getElem?_cons_succ] at hc hs
        by_cases hcond : (c0.is_active && (c0.count == s0.stall_tracker.count)) = true
        · by_cases helap0 : a ≤ now - s0.last_updated
          · cases hrn : rn c0.metadata.name_ptr c0.metadata.name_len with
            | error e =>
              rw [go_fired_err_fst rn a now id c0 cs s0 ss e hcond helap0 hrn] at hok
              exact absurd hok (by simp)
            | ok name =>
              cases hrec : (check_stalls_go rn a now (id + 1) cs ss).1 with
              | error e =>
                rw [go_fired_ok_fst_err rn a now id c0 cs s0 ss name e hcond helap0 hrn hrec] at hok
                exact absurd hok (by simp)
              | ok stalls =>
                rw [go_fired_ok_fst_ok rn a now id c0 cs s0 ss name stalls hcond helap0 hrn hrec] at hok
                injection hok with hok
                subst hok
                obtain ⟨r, hr, hrid⟩ := ih ss (id + 1) i stalls c s hrec hc hs ha he helap
                exact ⟨r, List.mem_cons_of_mem _ hr, by omega⟩
          · rw [go_below_fst rn a now id c0 cs s0 ss hcond helap0] at hok
            obtain ⟨r, hr, hrid⟩ := ih ss (id + 1) i reports c s hok hc hs ha he helap
            exact ⟨r, hr, by omega⟩
        · rw [go_changed_fst rn a now id c0 cs s0 ss hcond] at hok
          obtain ⟨r, hr, hrid⟩ := ih ss (id + 1) i reports c s hok hc hs ha he helap
          exact ⟨r, hr, by omega⟩

/-- On a successful scan, the snapshot of an odd-and-equal slot is kept
and any other slot's snapshot is replaced by the current value stamped
now. -/
theorem check_stalls_go_snap (rn : Nat → Nat → Except String String)
    (a now : Nat) :
    ∀ (cs : List StallTracker) (ss : List StallTrackerSnapshot) (id i : Nat)
      (reports : List StallReport) (c : StallTracker) (s : StallTrackerSnapshot),
      (check_stalls_go rn a now id cs ss).1 = .ok reports →
      cs[i]? = some c → ss[i]? = some s →
      (check_stalls_go rn a now id cs ss).2[i]? =
        some (if c.is_active && (c.count == s.stall_tracker.count) then s
          else StallTrackerSnapshot.mk c now) := by
  intro cs
  induction cs with
  | nil =>
    intro ss id i reports c s hok hc hs
    simp at hc
  | cons c0 cs ih =>
    intro ss id i reports c s hok hc hs
    cases ss with
    | nil => simp at hs
    | cons s0 ss =>
      by_cases hcond : (c0.is_active && (c0.count == s0.stall_tracker.count)) = true
      · by_cases helap : a ≤ now - s0.last_updated
        · cases hrn : rn c0.metadata.name_ptr c0.metadata.name_len with
          | error e =>
            rw [go_fired_err_fst rn a now id c0 cs s0 ss e hcond helap hrn] at hok
            exact absurd hok (by simp)
          | ok name =>
            cases hrec : (check_stalls_go rn a now (id + 1) cs ss).1 with
            | error e =>
              rw [go_fired_ok_fst_err rn a now id c0 cs s0 ss name e hcond helap hrn hrec] at hok
              exact absurd hok (by simp)
            | ok stalls =>
              rw [go_fired_ok_snd rn a now id c0 cs s0 ss name hcond helap hrn]
              cases i with
              | zero =>
                simp only [List.getElem?_cons_zero, Option.some.injEq] at hc hs
                subst hc
                subst hs
                rw [List.getElem?_cons_zero, if_pos hcond]
              | succ i =>
                rw [List.getElem?_cons_succ] at hc hs
                rw [List.getElem?_cons_succ]
                exact ih ss (id + 1) i stalls c s hrec hc hs
        · rw [go_below_fst rn a now id c0 cs s0 ss hcond helap] at hok
          rw [go_below_snd rn a now id c0 cs s0 ss hcond helap]
          cases i with
          | zero =>
            simp only [List.getElem?_cons_zero, Option.some.injEq] at hc hs
            subst hc
            subst hs
            rw [List.getElem?_cons_zero, if_pos hcond]
          | succ i =>
            rw [List.getElem?_cons_succ] at hc hs
            rw [List.getElem?_cons_succ]
            exact ih ss (id + 1) i reports c s hok hc hs
      · rw [go_changed_fst rn a now id c0 cs s0 ss hcond] at hok
        rw [go_changed_snd rn a now id c0 cs s0 ss hcond]
        cases i with
        | zero =>
          simp only [List.getElem?_cons_zero, Option.some.injEq] at hc hs
          subst hc
          subst hs
          rw [List.getElem?_cons_zero, if_neg hcond]
        | succ i =>
          rw [List.getElem?_cons_succ] at hc hs
          rw [List.getElem?_cons_succ]
          exact ih ss (id + 1) i reports c s hok hc hs

/-- On a successful scan, every snapshot after the poll is either the old
snapshot at that index or the freshly read slot value stamped now. -/
theorem check_stalls_go_snap_origin (rn : Nat → Nat → Except String String)
    (a now : Nat) :
    ∀ (cs : List StallTracker) (ss : List StallTrackerSnapshot) (id : Nat)
      (reports : List StallReport),
      (check_stalls_go rn a now id cs ss).1 = .ok reports →
      ∀ (i : Nat) (s2 : StallTrackerSnapshot),
        (check_stalls_go rn a now id cs ss).2[i]? = some s2 →
        ss[i]? = some s2 ∨
          ∃ c, cs[i]? = some c ∧ s2 = StallTrackerSnapshot.mk c now := by
  intro cs
  induction cs with
  | nil =>
    intro ss id reports hok i s2 hsnap
    rw [check_stalls_go_nil] at hsnap
    exact Or.inl hsnap
  | cons c0 cs ih =>
    intro ss id reports hok i s2 hsnap
    cases ss with
    | nil =>
      rw [check_stalls_go_cons_nil] at hsnap
      simp at hsnap
    | cons s0 ss =>
      by_cases hcond : (c0.is_active && (c0.count == s0.stall_tracker.count)) = true
      · by_cases helap : a ≤ now - s0.last_updated
        · cases hrn : rn c0.metadata.name_ptr c0.metadata.name_len with
          | error e =>
            rw [go_fired_err_fst rn a now id c0 cs s0 ss e hcond helap hrn] at hok
            exact absurd hok (by simp)
          | ok name =>
            cases hrec : (check_stalls_go rn a now (id + 1) cs ss).1 with
            | error e =>
              rw [go_fired_ok_fst_err rn a now id c0 cs s0 ss name e hcond helap hrn hrec] at hok
              exact absurd hok (by simp)
            | ok stalls =>
              rw [go_fired_ok_snd rn a now id c0 cs s0 ss name hcond helap hrn] at hsnap
              cases i with
              | zero =>
                rw [List.getElem?_cons_zero] at hsnap
                refine Or.inl ?_
                rw [List.getElem?_cons_zero]
                exact hsnap
              | succ i =>
                rw [List.getElem?_cons_succ] at hsnap
                rcases ih ss (id + 1) stalls hrec i s2 hsnap with hold | ⟨c, hc, hs2⟩
                · exact Or.inl (by simpa using hold)
                · exact Or.inr ⟨c, by simpa using hc, hs2⟩
        · rw [go_below_fst rn a now id c0 cs s0 ss hcond helap] at hok
          rw [go_below_snd rn a now id c0 cs s0 ss hcond helap] at hsnap
          cases i with
          | zero =>
            rw [List.getElem?_cons_zero] at hsnap
            refine Or.inl ?_
            rw [List.getElem?_cons_zero]
            exact hsnap
          | succ i =>
            rw [List.getElem?_cons_succ] at hsnap
            rcases ih ss (id + 1) reports hok i s2 hsnap with hold | ⟨c, hc, hs2⟩
            · exact Or.inl (by simpa using hold)
            · exact Or.inr ⟨c, by simpa using hc, hs2⟩
      · rw [go_changed_fst rn a now id c0 cs s0 ss hcond] at hok
        rw [go_changed_snd rn a now id c0 cs s0 ss hcond] at hsnap
        cases i with
        | zero =>
          rw [List.getElem?_cons_zero] at hsnap
          injection hsnap with hsnap
          refine Or.inr ⟨c0, ?_, hsnap.symm⟩
          rw [List.getElem?_cons_zero]
        | succ i =>
          rw [List.getElem?_cons_succ] at hsnap
          rcases ih ss (id + 1) reports hok i s2 hsnap with hold | ⟨c, hc, hs2⟩
          · exact Or.inl (by simpa using hold)
          · exact Or.inr ⟨c, by simpa using hc, hs2⟩

/-- A fired slot whose name read fails makes the whole scan return an
error (the Rust question-mark operator propagates it out of
check_stalls). -/
theorem check_stalls_go_error (rn : Nat → Nat → Except String String)
    (a now : Nat) :
    ∀ (cs : List StallTracker) (ss : List StallTrackerSnapshot) (id i : Nat)
      (c : StallTracker) (s : StallTrackerSnapshot) (e : String),
      cs[i]? = some c → ss[i]? = some s →
      c.is_active = true → c.count = s.stall_tracker.count →
      a ≤ now - s.last_updated →
      rn c.metadata.name_ptr c.metadata.name_len = .error e →
      ∃ e2, (check_stalls_go rn a now id cs ss).1 = .error e2 := by
  intro cs
  induction cs with
  | nil =>
    intro ss id i c s e hc hs ha he helap hrn
    simp at hc
  | cons c0 cs ih =>
    intro ss id i c s e hc hs ha he helap hrn
    cases ss with
    | nil => simp at hs
    | cons s0 ss =>
      cases i with
      | zero =>
        simp only [List.getElem?_cons_zero, Option.some.injEq] at hc hs
        subst hc
        subst hs
        have hcond : (c0.is_active && (c0.count == s0.stall_tracker.count)) = true :=
          (stall_cond_iff c0 s0).mpr ⟨ha, he⟩
        exact ⟨e, go_fired_err_fst rn a now id c0 cs s0 ss e hcond helap hrn⟩
      | succ i =>
        rw [List.getElem?_cons_succ] at hc hs
        by_cases hcond : (c0.is_active && (c0.count == s0.stall_tracker.count)) = true
        · by_cases helap0 : a ≤ now - s0.last_updated
          · cases hrn0 : rn c0.metadata.name_ptr c0.metadata.name_len with
            | error e0 =>
              exact ⟨e0, go_fired_err_fst rn a now id c0 cs s0 ss e0 hcond helap0 hrn0⟩
            | ok name =>
              obtain ⟨e2, hrec⟩ := ih ss (id + 1) i c s e hc hs ha he helap hrn
              exact ⟨e2, go_fired_ok_fst_err rn a now id c0 cs s0 ss name e2
                hcond helap0 hrn0 hrec⟩
          · obtain ⟨e2, hrec⟩ := ih ss (id + 1) i c s e hc hs ha he helap hrn
            refine ⟨e2, ?_⟩
            rw [go_below_fst rn a now id c0 cs s0 ss hcond helap0]
            exact hrec
        · obtain ⟨e2, hrec⟩ := ih ss (id + 1) i c s e hc hs ha he helap hrn
          refine ⟨e2, ?_⟩
          rw [go_changed_fst rn a now id c0 cs s0 ss hcond]
          exact hrec

/-- Equation: a successful poll prepends its reports and threads the
updated snapshots. -/
theorem run_polls_cons_ok (alert : Nat) (p : PollInput) (rest : List PollInput)
    (snaps snaps2 : List StallTrackerSnapshot) (reps : List StallReport)
    (h : check_stalls p.read_name alert p.now p.slots snaps = (.ok reps, snaps2)) :
    run_polls alert (p :: rest) snaps =
      (reps :: (run_polls alert rest snaps2).1, (run_polls alert rest snaps2).2) := by
  simp only [run_polls]
  rw [h]

/-- Equation: a failing poll stops the loop. -/
theorem run_polls_cons_err (alert : Nat) (p : PollInput) (rest : List PollInput)
    (snaps snaps2 : List StallTrackerSnapshot) (e : String)
    (h : check_stalls p.read_name alert p.now p.slots snaps = (.error e, snaps2)) :
    run_polls alert (p :: rest) snaps = ([], snaps2) := by
  simp only [run_polls]
  rw [h]

/-- Component equation: report lists of a run starting with a successful
poll. -/
theorem run_polls_fst_ok (alert : Nat) (p : PollInput) (rest : List PollInput)
    (snaps snaps2 : List StallTrackerSnapshot) (reps : List StallReport)
    (h : check_stalls p.read_name alert p.now p.slots snaps = (.ok reps, snaps2)) :
    (run_polls alert (p :: rest) snaps).1 =
      reps :: (run_polls alert rest snaps2).1 := by
  rw [run_polls_cons_ok alert p rest snaps snaps2 reps h]

/-- Component equation: report lists of a run starting with a failing
poll. -/
theorem run_polls_fst_err (alert : Nat) (p : PollInput) (rest : List PollInput)
    (snaps snaps2 : List StallTrackerSnapshot) (e : String)
    (h : check_stalls p.read_name alert p.now p.slots snaps = (.error e, snaps2)) :
    (run_polls alert (p :: rest) snaps).1 = [] := by
  rw [run_polls_cons_err alert p rest snaps snaps2 e h]

/-- The snapshot array built at attach time, indexed. -/
theorem attach_snapshots_getElem (slots : List StallTracker) (t0 i : Nat) :
    (attach_snapshots slots t0)[i]? =
      (slots[i]?).map (fun st => StallTrackerSnapshot.mk st t0) := by
  simp [attach_snapshots]

/-- Every report of any poll of a run is backed by a slot read that saw an
odd counter equal to a counter recorded in the snapshots the run started
from (abstracted by O) or read by an earlier poll of the run. -/
theorem run_polls_report_witnessed (alert : Nat) :
    ∀ (polls : List PollInput) (snaps : List StallTrackerSnapshot)
      (O : Nat → Nat → Prop)
      (hO : ∀ (i : Nat) (s : StallTrackerSnapshot), snaps[i]? = some s →
        O i s.stall_tracker.count)
      (k : Nat) (reports : List StallReport) (rpt : StallReport),
      (run_polls alert polls snaps).1[k]? = some reports →
      rpt ∈ reports →
      ∃ p c, polls[k]? = some p ∧ p.slots[rpt.id]? = some c ∧
        c.count % 2 = 1 ∧
        (O rpt.id c.count ∨ observed_in polls k rpt.id c.count) := by
  intro polls
  induction polls with
  | nil =>
    intro snaps O _hO k reports rpt hk hr
    simp [run_polls] at hk
  | cons p rest ih =>
    intro snaps O hO k reports rpt hk hr
    cases hcs : check_stalls p.read_name alert p.now p.slots snaps with
    | mk res snaps2 =>
      cases res with
      | error e =>
        rw [run_polls_fst_err alert p rest snaps snaps2 e hcs] at hk
        simp at hk
      | ok reps =>
        rw [run_polls_fst_ok alert p rest snaps snaps2 reps hcs] at hk
        have h1 : (check_stalls_go p.read_name alert p.now 0 p.slots snaps).1 =
            .ok reps := congrArg Prod.fst hcs
        have h2 : (check_stalls_go p.read_name alert p.now 0 p.slots snaps).2 =
            snaps2 := congrArg Prod.snd hcs
        cases k with
        | zero =>
          rw [List.getElem?_cons_zero] at hk
          injection hk with hk
          subst hk
          obtain ⟨i, c, s, hid, hc, hs, hact, hcnt, helap, hdur⟩ :=
            check_stalls_go_report_origin p.read_name alert p.now p.slots snaps
              0 reps rpt h1 hr
          have hidi : rpt.id = i := by omega
          refine ⟨p, c, ?_, ?_, (is_active_iff c).mp hact, Or.inl ?_⟩
          · rw [List.getElem?_cons_zero]
          · rw [hidi]
            exact hc
          · rw [hidi, hcnt]
            exact hO i s hs
        | succ k =>
          rw [List.getElem?_cons_succ] at hk
          obtain ⟨p2, c2, hp2, hc2, hodd, hobs⟩ :=
            ih snaps2
              (fun i cnt => O i cnt ∨ ∃ c, p.slots[i]? = some c ∧ c.count = cnt)
              (fun i s2 hs2 => by
                rcases check_stalls_go_snap_origin p.read_name alert p.now
                    p.slots snaps 0 reps h1 i s2 (by rw [h2]; exact hs2) with
                  hold | ⟨c, hc, hs2eq⟩
                · exact Or.inl (hO i s2 hold)
                · refine Or.inr ⟨c, hc, ?_⟩
                  rw [hs2eq])
              k reports rpt hk hr
          refine ⟨p2, c2, ?_, hc2, hodd, ?_⟩
          · rw [List.getElem?_cons_succ]
            exact hp2
          · rcases hobs with (hL | ⟨c3, hc3, hcnt3⟩) | hE
            · exact Or.inl hL
            · refine Or.inr ⟨0, by omega, p, c3, ?_, hc3, hcnt3⟩
              rw [List.getElem?_cons_zero]
            · obtain ⟨j, hj, pj, cj, hpj, hcj, hcntj⟩ := hE
              refine Or.inr ⟨j + 1, by omega, pj, cj, ?_, hcj, hcntj⟩
              rw [List.getElem?_cons_succ]
              exact hpj

/-- C1: on a successful poll, a stall report for slot i is emitted exactly
when the freshly read counter is odd, equal to the stored snapshot counter,
and the time since the snapshot reached the alert interval; every such
report's duration is the time since the snapshot (hence at least the alert
interval); in both odd-and-equal cases the snapshot is kept, otherwise it
is replaced by the current value stamped now. -/
theorem c1_check_stalls (rn : Nat → Nat → Except String String)
    (alert now : Nat) (cs : List StallTracker) (ss : List StallTrackerSnapshot)
    (reports : List StallReport) (ss2 : List StallTrackerSnapshot)
    (i : Nat) (c : StallTracker) (s : StallTrackerSnapshot)
    (hok : check_stalls rn alert now cs ss = (.ok reports, ss2))
    (hc : cs[i]? = some c) (hs : ss[i]? = some s) :
    ((∃ r ∈ reports, r.id = i) ↔
      (c.is_active = true ∧ c.count = s.stall_tracker.count ∧
        alert ≤ now - s.last_updated)) ∧
    (∀ r ∈ reports, r.id = i →
      r.duration = now - s.last_updated ∧ alert ≤ r.duration) ∧
    (c.is_active = true → c.count = s.stall_tracker.count → ss2[i]? = some s) ∧
    (¬ (c.is_active = true ∧ c.count = s.stall_tracker.count) →
      ss2[i]? = some (StallTrackerSnapshot.mk c now)) := by
  have h1 : (check_stalls_go rn alert now 0 cs ss).1 = .ok reports :=
    congrArg Prod.fst hok
  have h2 : (check_stalls_go rn alert now 0 cs ss).2 = ss2 :=
    congrArg Prod.snd hok
  refine ⟨⟨?_, ?_⟩, ?_, ?_, ?_⟩
  · rintro ⟨r, hr, hid⟩
    obtain ⟨i0, c2, s2, hid2, hc2, hs2, h4, h5, h6, h7⟩ :=
      check_stalls_go_report_origin rn alert now cs ss 0 reports r h1 hr
    have hii : i0 = i := by omega
    subst hii
    rw [hc] at hc2
    rw [hs] at hs2
    injection hc2 with hc2
    injection hs2 with hs2
    subst hc2
    subst hs2
    exact ⟨h4, h5, h6⟩
  · rintro ⟨ha, he, helap⟩
    obtain ⟨r, hr, hrid⟩ :=
      check_stalls_go_fired_report rn alert now cs ss 0 i reports c s
        h1 hc hs ha he helap
    exact ⟨r, hr, by omega⟩
  · intro r hr hid
    obtain ⟨i0, c2, s2, hid2, hc2, hs2, h4, h5, h6, h7⟩ :=
      check_stalls_go_report_origin rn alert now cs ss 0 reports r h1 hr
    have hii : i0 = i := by omega
    subst hii
    rw [hs] at hs2
    injection hs2 with hs2
    subst hs2
    exact ⟨h7, by omega⟩
  · intro ha he
    have hsn := check_stalls_go_snap rn alert now cs ss 0 i reports c s h1 hc hs
    rw [h2] at hsn
    rw [if_pos ((stall_cond_iff c s).mpr ⟨ha, he⟩)] at hsn
    exact hsn
  · intro hne
    have hsn := check_stalls_go_snap rn alert now cs ss 0 i reports c s h1 hc hs
    rw [h2] at hsn
    rw [if_neg (fun hcd => hne ((stall_cond_iff c s).mp hcd))] at hsn
    exact hsn

/-- Witness for C1 on a concrete fired poll: one slot, counter 3, snapshot
8 ticks old against a 5-tick alert interval. -/
theorem c1_check_stalls_witness :
    (∃ r ∈ [StallReport.mk 0 "task" GIL 8], r.id = 0) ∧
    (StallTracker.mk 3 (SlotMetadata.mk 5 4 GIL)).is_active = true :=
  have h := c1_check_stalls (fun _ _ => Except.ok "task") 5 10
    [StallTracker.mk 3 (SlotMetadata.mk 5 4 GIL)]
    [StallTrackerSnapshot.mk (StallTracker.mk 3 (SlotMetadata.mk 5 4 GIL)) 2]
    [StallReport.mk 0 "task" GIL 8]
    [StallTrackerSnapshot.mk (StallTracker.mk 3 (SlotMetadata.mk 5 4 GIL)) 2]
    0 (StallTracker.mk 3 (SlotMetadata.mk 5 4 GIL))
    (StallTrackerSnapshot.mk (StallTracker.mk 3 (SlotMetadata.mk 5 4 GIL)) 2)
    (by rfl) (by rfl) (by rfl)
  ⟨h.1.mpr ⟨rfl, rfl, by decide⟩, rfl⟩

/-- C2 counterexample: with two stalled slots, the first with an
undecodable name and the second with a decodable one, check_stalls returns
an error - no report is produced for the healthy second slot - and the
watch loop exits with the error while the target is alive, instead of
skipping the one stall and keeping monitoring. -/
theorem c2_counterexample :
    (check_stalls
        (fun ptr _ => if ptr == 0 then Except.error "invalid utf-8"
          else Except.ok "good")
        5 10
        [StallTracker.mk 1 (SlotMetadata.mk 0 3 GIL),
         StallTracker.mk 1 (SlotMetadata.mk 100 4 GIL)]
        [StallTrackerSnapshot.mk (StallTracker.mk 1 (SlotMetadata.mk 0 3 GIL)) 0,
         StallTrackerSnapshot.mk (StallTracker.mk 1 (SlotMetadata.mk 100 4 GIL)) 0]).1 =
      Except.error "invalid utf-8" ∧
    watch_step (Except.error "invalid utf-8") true = WatchOutcome.exitError :=
  ⟨rfl, rfl⟩

/-- C2 amended: a name-decode failure on a fired stall is not scoped to
that slot: the whole poll aborts (check_stalls returns the error and no
report list at all), and watch_process then exits with the error whenever
the target is still alive, exiting cleanly only when the target has
gone. -/
theorem c2_decode_failure_aborts (rn : Nat → Nat → Except String String)
    (alert now : Nat) (cs : List StallTracker) (ss : List StallTrackerSnapshot)
    (i : Nat) (c : StallTracker) (s : StallTrackerSnapshot) (e : String)
    (hc : cs[i]? = some c) (hs : ss[i]? = some s)
    (ha : c.is_active = true) (he : c.count = s.stall_tracker.count)
    (helap : alert ≤ now - s.last_updated)
    (hrn : rn c.metadata.name_ptr c.metadata.name_len = .error e) :
    (∃ e2, (check_stalls rn alert now cs ss).1 = .error e2) ∧
    (∀ (e3 : String), watch_step (.error e3) true = .exitError ∧
      watch_step (.error e3) false = .exitClean) := by
  constructor
  · exact check_stalls_go_error rn alert now cs ss 0 i c s e hc hs ha he helap hrn
  · intro e3
    exact ⟨rfl, rfl⟩

/-- Witness for C2's amended claim at a concrete failing read. -/
theorem c2_decode_failure_aborts_witness :
    ∃ e2, (check_stalls (fun _ _ => Except.error "bad") 5 10
        [StallTracker.mk 1 (SlotMetadata.mk 0 3 GIL)]
        [StallTrackerSnapshot.mk (StallTracker.mk 1 (SlotMetadata.mk 0 3 GIL)) 0]).1 =
      Except.error e2 :=
  (c2_decode_failure_aborts (fun _ _ => Except.error "bad") 5 10
      [StallTracker.mk 1 (SlotMetadata.mk 0 3 GIL)]
      [StallTrackerSnapshot.mk (StallTracker.mk 1 (SlotMetadata.mk 0 3 GIL)) 0]
      0 (StallTracker.mk 1 (SlotMetadata.mk 0 3 GIL))
      (StallTrackerSnapshot.mk (StallTracker.mk 1 (SlotMetadata.mk 0 3 GIL)) 0)
      "bad" (by rfl) (by rfl) (by rfl) (by rfl) (by decide) (by rfl)).1

/-- C3: every reported stall is witnessed by two reads of the slot array:
the firing poll read an odd counter value for the slot, and the very same
value was observed for that slot either by the attach-time initial read or
by an earlier poll; no report arises from a single observation. -/
theorem c3_two_reads (alert t0 : Nat) (r0 : List StallTracker)
    (polls : List PollInput) (k : Nat) (reports : List StallReport)
    (rpt : StallReport)
    (hk : (run_polls alert polls (attach_snapshots r0 t0)).1[k]? = some reports)
    (hr : rpt ∈ reports) :
    ∃ p c, polls[k]? = some p ∧ p.slots[rpt.id]? = some c ∧
      c.count % 2 = 1 ∧
      ((∃ c0, r0[rpt.id]? = some c0 ∧ c0.count = c.count) ∨
        observed_in polls k rpt.id c.count) :=
  run_polls_report_witnessed alert polls (attach_snapshots r0 t0)
    (fun i cnt => ∃ c0, r0[i]? = some c0 ∧ c0.count = cnt)
    (fun i s hs => by
      rw [attach_snapshots_getElem] at hs
      cases hc0 : r0[i]? with
      | none =>
        rw [hc0] at hs
        simp at hs
      | some c0 =>
        rw [hc0] at hs
        simp at hs
        subst hs
        exact ⟨c0, rfl, rfl⟩)
    k reports rpt hk hr

/-- Witness for C3 on a one-slot, one-poll run whose attach read and poll
read both saw counter 1. -/
theorem c3_two_reads_witness :
    ∃ p c,
      ([PollInput.mk 10 [StallTracker.mk 1 (SlotMetadata.mk 7 1 GIL)]
          (fun _ _ => Except.ok "w")] : List PollInput)[0]? = some p ∧
      p.slots[(StallReport.mk 0 "w" GIL 10).id]? = some c ∧
      c.count % 2 = 1 ∧
      ((∃ c0, ([StallTracker.mk 1 (SlotMetadata.mk 7 1 GIL)] :
          List StallTracker)[(StallReport.mk 0 "w" GIL 10).id]? = some c0 ∧
          c0.count = c.count) ∨
        observed_in
          [PollInput.mk 10 [StallTracker.mk 1 (SlotMetadata.mk 7 1 GIL)]
            (fun _ _ => Except.ok "w")]
          0 (StallReport.mk 0 "w" GIL 10).id c.count) :=
  c3_two_reads 5 0 [StallTracker.mk 1 (SlotMetadata.mk 7 1 GIL)]
    [PollInput.mk 10 [StallTracker.mk 1 (SlotMetadata.mk 7 1 GIL)]
      (fun _ _ => Except.ok "w")]
    0 [StallReport.mk 0 "w" GIL 10] (StallReport.mk 0 "w" GIL 10)
    (by rfl) (List.mem_singleton.mpr rfl)

end Perpetuo
